import Mathlib

/-!
Verification of `src/skills/kicad_helper.py` (KiCad schematic helper).

The Python module is shallowly embedded below.  Pure string/arithmetic
helpers become Lean functions over `String`/`ℚ`; the external
`kicad_sch_api` collaborator and the `kicad-cli` renderer are modelled as a
record of fallible operations (`Collab`), and each call the orchestrator
makes is recorded as an `Effect`.  Python exceptions are modelled with
`Except String`; an operation the source wraps in `try/except` turns the
error into a `warn` effect, while an unguarded operation propagates it.
Python `float` arithmetic is embedded as exact rational arithmetic, and
Python's banker's rounding (`round`) as `pythonRound`.
-/

namespace KicadHelper

/-! ### String helpers (Python `in`, `startswith`, `split`, `upper`) -/

/-- Whether the pattern (first argument) occurs at the start of the list. -/
def chStart : List Char → List Char → Bool
  | [], _ => true
  | _ :: _, [] => false
  | p :: ps, c :: cs => p == c && chStart ps cs

/-- Whether the pattern occurs as a contiguous sublist (Python `pat in s`). -/
def chHas (pat : List Char) : List Char → Bool
  | [] => chStart pat []
  | c :: cs => chStart pat (c :: cs) || chHas pat cs

/-- Python `pat in s` on strings. -/
def inStr (pat s : String) : Bool := chHas pat.toList s.toList

/-- Python `s.startswith(pat)`. -/
def startsWithStr (s pat : String) : Bool := chStart pat.toList s.toList

/-- Python `s.upper()` (ASCII letters, which is all the source compares). -/
def toUpperStr (s : String) : String := String.mk (s.toList.map Char.toUpper)

/-- Python `s.split(sep)` for a single-character separator. -/
def splitOnChar (sep : Char) : List Char → List (List Char)
  | [] => [[]]
  | c :: cs =>
    let r := splitOnChar sep cs
    if c == sep then [] :: r else (c :: r.headD []) :: r.tail

theorem splitOnChar_ne_nil (sep : Char) (l : List Char) : splitOnChar sep l ≠ [] := by
  cases l with
  | nil => simp [splitOnChar]
  | cons c cs =>
    simp only [splitOnChar]
    split <;> simp

theorem splitOnChar_no_sep (sep : Char) (l : List Char) (h : sep ∉ l) :
    splitOnChar sep l = [l] := by
  induction l with
  | nil => rfl
  | cons c cs ih =>
    simp only [List.mem_cons, not_or] at h
    simp only [splitOnChar, ih h.2]
    have : (c == sep) = false := by
      simp only [beq_eq_false_iff_ne, ne_eq]
      exact fun hc => h.1 hc.symm
    simp [this]

theorem splitOnChar_append_sep (sep : Char) (xs ys : List Char) (h : sep ∉ xs) :
    splitOnChar sep (xs ++ sep :: ys) = xs :: splitOnChar sep ys := by
  induction xs with
  | nil => simp [splitOnChar]
  | cons x xs ih =>
    simp only [List.mem_cons, not_or] at h
    have hx : (x == sep) = false := by
      simp only [beq_eq_false_iff_ne, ne_eq]
      exact fun hc => h.1 hc.symm
    simp only [List.cons_append, splitOnChar, hx, Bool.false_eq_true, if_false, List.append_eq]
    rw [ih h.2]
    simp

theorem splitOnChar_sandwich (sep : Char) (xs ys : List Char)
    (hx : sep ∉ xs) (hy : sep ∉ ys) :
    splitOnChar sep (xs ++ sep :: ys) = [xs, ys] := by
  rw [splitOnChar_append_sep sep xs ys hx, splitOnChar_no_sep sep ys hy]

/-- If a pattern occurs in a list, so does every prefix of the pattern. -/
theorem chStart_of_append (p q l : List Char) (h : chStart (p ++ q) l = true) :
    chStart p l = true := by
  induction p generalizing l with
  | nil => rfl
  | cons x xs ih =>
    cases l with
    | nil => simp [chStart] at h
    | cons c cs =>
      simp only [List.cons_append, chStart, Bool.and_eq_true] at h ⊢
      exact ⟨h.1, ih cs h.2⟩

theorem chHas_of_append (p q l : List Char) (h : chHas (p ++ q) l = true) :
    chHas p l = true := by
  induction l with
  | nil =>
    simp only [chHas] at h ⊢
    cases p with
    | nil => rfl
    | cons x xs => simp [chStart] at h
  | cons c cs ih =>
    simp only [chHas, Bool.or_eq_true] at h ⊢
    cases h with
    | inl h => exact Or.inl (chStart_of_append p q _ h)
    | inr h => exact Or.inr (ih h)

/-! ### Grid constants and snapping (source lines 59-102) -/

/-- Grid spacing in KiCad (mm); `GRID_SPACING = 2.54`. -/
def GRID_SPACING : ℚ := 2.54

/-- Horizontal spacing between components. -/
def COMPONENT_SPACING_X : ℚ := 40.0

/-- Vertical spacing between pins. -/
def COMPONENT_SPACING_Y : ℚ := 10.0

/-- Default output directory (relative to the working directory). -/
def DEFAULT_OUTPUT_DIR : String := "KiCad"

/-- Python 3 `round` to the nearest integer, ties to even (banker's rounding). -/
def pythonRound (q : ℚ) : ℤ :=
  let f := Int.floor q
  let frac := q - f
  if frac < 1 / 2 then f
  else if 1 / 2 < frac then f + 1
  else if f % 2 = 0 then f else f + 1

/-- `_snap_to_grid`: `round(value / grid) * grid`. -/
def snap_to_grid (value : ℚ) (grid : ℚ) : ℚ :=
  (pythonRound (value / grid) : ℚ) * grid

theorem pythonRound_intCast (n : ℤ) : pythonRound (n : ℚ) = n := by
  simp only [pythonRound, Int.floor_intCast, sub_self]
  norm_num

theorem snap_to_grid_fixed (v grid : ℚ) (hg : grid ≠ 0) :
    snap_to_grid (snap_to_grid v grid) grid = snap_to_grid v grid := by
  simp only [snap_to_grid]
  rw [mul_div_cancel_right₀ _ hg, pythonRound_intCast]

/-! ### Component specs and the auto-layout engine (source lines 284-330) -/

/-- A component spec: the optional keys of the Python dict passed per
reference designator (`lib_id`, `value`, `pins`, `footprint`, `position`). -/
structure Spec where
  lib_id : Option String
  value : Option String
  pins : Option (List (String × String))
  footprint : Option String
  position : Option (ℚ × ℚ)
  deriving DecidableEq

/-- The three layout groups of `_auto_layout_components`. -/
inductive Category where
  | mcu
  | passive
  | other
  deriving DecidableEq

/-- The categorization applied to each `lib_id` inside
`_auto_layout_components` (lines 300-307): controller markers first, then
the `Device:R`, `Device:C`, `Device:L` name classes, else other. -/
def categorize (lib_id : String) : Category :=
  if inStr "MCU" lib_id || inStr "Module" lib_id || inStr "IC" lib_id then .mcu
  else if startsWithStr lib_id "Device:R" || startsWithStr lib_id "Device:C"
      || startsWithStr lib_id "Device:L" then .passive
  else .other

/-- One pass over the component dict splitting the references into the
`mcus`, `passives` and `others` lists (insertion order preserved). -/
def categorize_components : List (String × Spec) → List String × List String × List String
  | [] => ([], [], [])
  | (ref, spec) :: rest =>
    let r := categorize_components rest
    match categorize (spec.lib_id.getD "") with
    | .mcu => (ref :: r.1, r.2.1, r.2.2)
    | .passive => (r.1, ref :: r.2.1, r.2.2)
    | .other => (r.1, r.2.1, ref :: r.2.2)

/-- `for i, ref in enumerate(mcus): positions[ref] = (50 + i*SPACING_X*2, 50)`. -/
def mcu_positions (i : ℕ) : List String → List (String × (ℚ × ℚ))
  | [] => []
  | ref :: rest =>
    (ref, (50 + (i : ℚ) * (COMPONENT_SPACING_X * 2), 50)) :: mcu_positions (i + 1) rest

/-- Passive grid: 4 columns, `x = passive_x + col*SPACING_X/2`, `y = 50 + row*SPACING_Y`. -/
def passive_positions (passive_x : ℚ) (i : ℕ) : List String → List (String × (ℚ × ℚ))
  | [] => []
  | ref :: rest =>
    (ref, (passive_x + ((i % 4 : ℕ) : ℚ) * (COMPONENT_SPACING_X / 2),
           50 + ((i / 4 : ℕ) : ℚ) * COMPONENT_SPACING_Y)) :: passive_positions passive_x (i + 1) rest

/-- Others column: fixed `x`, `y = 50 + i*SPACING_Y`. -/
def other_positions (other_x : ℚ) (i : ℕ) : List String → List (String × (ℚ × ℚ))
  | [] => []
  | ref :: rest =>
    (ref, (other_x, 50 + (i : ℚ) * COMPONENT_SPACING_Y)) :: other_positions other_x (i + 1) rest

/-- `_auto_layout_components` (lines 284-330). -/
def auto_layout_components (components : List (String × Spec)) : List (String × (ℚ × ℚ)) :=
  let cats := categorize_components components
  let mcus := cats.1
  let passives := cats.2.1
  let others := cats.2.2
  let passive_x : ℚ := 50 + (mcus.length : ℚ) * (COMPONENT_SPACING_X * 2) + COMPONENT_SPACING_X
  let other_x : ℚ := passive_x + COMPONENT_SPACING_X * 2
  mcu_positions 0 mcus ++ passive_positions passive_x 0 passives ++ other_positions other_x 0 others

/-! ### Pin reference resolver (source lines 257-281) -/

/-- `_parse_pin_ref`: split on `'.'`; raise `ValueError` unless exactly two
parts; substitute through the component's pin map when an entry exists,
otherwise pass the pin token through unchanged. -/
def parse_pin_ref (pin_ref : String) (pin_maps : List (String × List (String × String))) :
    Except String (String × String) :=
  match splitOnChar '.' pin_ref.toList with
  | [refL, pinL] =>
    let ref := String.mk refL
    let pin_name := String.mk pinL
    let pin_num :=
      match pin_maps.lookup ref with
      | some m =>
        match m.lookup pin_name with
        | some n => n
        | none => pin_name
      | none => pin_name
    .ok (ref, pin_num)
  | _ => .error ("Invalid pin reference: " ++ pin_ref)

/-! ### Signal classifier (source lines 505-596) -/

/-- `SIGNAL_PATTERNS`, in the source's (insertion) order. -/
def SIGNAL_PATTERNS : List (String × String) :=
  [ ("SDA", "I2C Data"), ("SCL", "I2C Clock"),
    ("MOSI", "SPI Data"), ("MISO", "SPI Data"),
    ("SCK", "SPI Clock"), ("SCLK", "SPI Clock"),
    ("CS", "SPI Select"), ("SS", "SPI Select"), ("NSS", "SPI Select"),
    ("GND", "Ground"),
    ("VCC", "Power"), ("VDD", "Power"), ("3V3", "Power"), ("3.3V", "Power"),
    ("5V", "Power"), ("12V", "Power"), ("VBAT", "Power"), ("VIN", "Power"),
    ("VOUT", "Power"),
    ("PWM", "PWM"), ("ADC", "Analog"), ("DAC", "Analog"),
    ("INT", "Interrupt"), ("IRQ", "Interrupt"),
    ("RST", "Reset"), ("RESET", "Reset"),
    ("EN", "Enable"), ("ENABLE", "Enable"),
    ("RS485", "RS-485"), ("RS422", "RS-422"),
    ("485_DE", "RS-485 Driver Enable"), ("485_RE", "RS-485 Receiver Enable"),
    ("485_DI", "RS-485 Driver Input"), ("485_RO", "RS-485 Receiver Output"),
    ("DATA+", "RS-485 Data+"), ("DATA-", "RS-485 Data-"),
    ("CANH", "CAN High"), ("CANL", "CAN Low"),
    ("CAN_H", "CAN High"), ("CAN_L", "CAN Low"),
    ("CAN_TX", "CAN TX"), ("CAN_RX", "CAN RX") ]

/-- The RS-485 transceiver pin-name set of `_infer_signal_type`. -/
def rs485_pins : List String := ["DI", "RO", "DE", "RE", "/RE", "~RE"]

/-- Python `lst[-1]`, modelled as fallible (raises `IndexError` on `[]`). -/
def pyLast : List (List Char) → Except String (List Char)
  | [] => .error "IndexError: list index out of range"
  | [a] => .ok a
  | _ :: b :: rest => pyLast (b :: rest)

theorem pyLast_ok (l : List (List Char)) (h : l ≠ []) : ∃ a, pyLast l = .ok a := by
  induction l with
  | nil => exact absurd rfl h
  | cons a rest ih =>
    cases rest with
    | nil => exact ⟨a, rfl⟩
    | cons b rest' => exact ih (by simp)

/-- `_infer_signal_type` (lines 556-596).  The only operation Python could
conceivably raise on, the `[-1]` index into the split result, is embedded
as the fallible `pyLast`; every other step is pure. -/
def infer_signal_type (src dst : String) : Except String String :=
  let src_upper := toUpperStr src
  let dst_upper := toUpperStr dst
  let combined := src_upper ++ dst_upper
  if inStr "CAN" combined then
    if inStr "CANH" combined || inStr "CAN_H" combined then .ok "CAN High"
    else if inStr "CANL" combined || inStr "CAN_L" combined then .ok "CAN Low"
    else if inStr "CAN_TX" combined || inStr "CANTX" combined then .ok "CAN TX"
    else if inStr "CAN_RX" combined || inStr "CANRX" combined then .ok "CAN RX"
    else .ok "CAN"
  else
    match (if inStr "." src then
            (pyLast (splitOnChar '.' src.toList)).map (fun l => toUpperStr (String.mk l))
           else .ok src_upper) with
    | .error e => .error e
    | .ok src_pin =>
      match (if inStr "." dst then
              (pyLast (splitOnChar '.' dst.toList)).map (fun l => toUpperStr (String.mk l))
             else .ok dst_upper) with
      | .error e => .error e
      | .ok dst_pin =>
        if rs485_pins.contains src_pin || rs485_pins.contains dst_pin then .ok "RS-485"
        else if (inStr "TX" src_upper && inStr "RX" dst_upper)
            || (inStr "RX" src_upper && inStr "TX" dst_upper) then .ok "UART"
        else
          match SIGNAL_PATTERNS.find? (fun p => inStr p.1 combined) with
          | some p => .ok p.2
          | none => .ok ""

/-! ### The external schematic-editing collaborator and the orchestrator
(source lines 105-254 and 333-363) -/

/-- The operations `create_schematic` consumes from `kicad_sch_api`, the
`kicad-cli` renderer and the filesystem, each modelled as fallible.
An `.error` result stands for the call raising an exception. -/
structure Collab where
  newSchematic : String → Except String Unit
  addComponent : String → String → String → (ℚ × ℚ) → Option String → Except String Unit
  autoRoute : String → String → String → String → Except String Unit
  addWire : String → String → String → String → Except String Unit
  getPinPos : String → String → Except String (ℚ × ℚ)
  addLabel : String → (ℚ × ℚ) → Except String Unit
  save : String → Except String Unit
  render : String → Except String String
  writeMd : String → Except String Unit

/-- A collaborator on which every operation succeeds. -/
def okCollab : Collab where
  newSchematic := fun _ => .ok ()
  addComponent := fun _ _ _ _ _ => .ok ()
  autoRoute := fun _ _ _ _ => .ok ()
  addWire := fun _ _ _ _ => .ok ()
  getPinPos := fun _ _ => .ok (0, 0)
  addLabel := fun _ _ => .ok ()
  save := fun _ => .ok ()
  render := fun p => .ok p
  writeMd := fun _ => .ok ()

/-- Trace of the observable actions of one build.  `labelAttempt` marks
entry into the label-placement `try` block of `_add_power_net`, and
`joinAttempt` entry into one iteration of its pairwise join loop. -/
inductive Effect where
  | placed (ref : String)
  | warn (msg : String)
  | routed (srcRef srcPin dstRef dstPin : String)
  | wired (srcRef srcPin dstRef dstPin : String)
  | labelAttempt (net : String)
  | labeled (net : String)
  | joinAttempt (src dst : String)
  | saved (path : String)
  | renderAttempt
  | rendered (svg : String)
  | wroteMd
  deriving DecidableEq

/-- `_get_output_path` (lines 68-89): prepend the output directory when the
filename has no directory part.  The `os.makedirs` side effect is dropped;
only the returned path is modelled. -/
def get_output_path (filename : String) (output_dir : Option String) : String :=
  if inStr "/" filename then filename
  else
    let dir := match output_dir with
      | some d => if d = "" then DEFAULT_OUTPUT_DIR else d
      | none => DEFAULT_OUTPUT_DIR
    dir ++ "/" ++ filename

/-- The final (snapped) position of one component in `create_schematic`
(lines 177-186): explicit `position` key, else the auto-layout position,
else `(100, 100)`; then both coordinates are snapped to the grid. -/
def final_position (positions : List (String × (ℚ × ℚ))) (ref : String) (spec : Spec) : ℚ × ℚ :=
  let pos := match spec.position with
    | some q => q
    | none =>
      match positions.lookup ref with
      | some q => q
      | none => (100, 100)
  (snap_to_grid pos.1 GRID_SPACING, snap_to_grid pos.2 GRID_SPACING)

/-- All placed positions of one build, in component order (the snapped
positions `create_schematic` passes to the collaborator). -/
def component_positions (components : List (String × Spec)) (auto_layout : Bool) :
    List (String × (ℚ × ℚ)) :=
  let positions := if auto_layout then auto_layout_components components else []
  components.map (fun p => (p.1, final_position positions p.1 p.2))

/-- Placement of one component (lines 172-197); a failing `components.add`
is caught and turned into a warning. -/
def place_component (c : Collab) (positions : List (String × (ℚ × ℚ)))
    (p : String × Spec) : List Effect :=
  let ref := p.1
  let spec := p.2
  let lib_id := spec.lib_id.getD "Device:R"
  let value := spec.value.getD ""
  let footprint := spec.footprint.getD ""
  let pos := final_position positions ref spec
  match c.addComponent lib_id ref value pos (if footprint = "" then none else some footprint) with
  | .ok _ => [.placed ref]
  | .error e => [.warn ("Could not add component " ++ ref ++ " (" ++ lib_id ++ "): " ++ e)]

/-- One connection (lines 208-230): parse both endpoints (failure warned and
skipped), try manhattan routing, fall back to a direct wire, else warn. -/
def connect_one (c : Collab) (pin_maps : List (String × List (String × String)))
    (conn : String × String) : List Effect :=
  let src := conn.1
  let dst := conn.2
  match parse_pin_ref src pin_maps, parse_pin_ref dst pin_maps with
  | .ok (sr, sp), .ok (dr, dp) =>
    match c.autoRoute sr sp dr dp with
    | .ok _ => [.routed sr sp dr dp]
    | .error _ =>
      match c.addWire sr sp dr dp with
      | .ok _ => [.wired sr sp dr dp]
      | .error e2 => [.warn ("Could not connect " ++ src ++ " -> " ++ dst ++ ": " ++ e2)]
  | _, _ => [.warn ("Could not parse pin reference " ++ src ++ " or " ++ dst)]

/-- One iteration of the pairwise join of `_add_power_net` (lines 355-363):
the `try` covers both parses and the wire call. -/
def try_join (c : Collab) (pin_maps : List (String × List (String × String)))
    (src dst : String) : List Effect :=
  match parse_pin_ref src pin_maps, parse_pin_ref dst pin_maps with
  | .ok (sr, sp), .ok (dr, dp) =>
    match c.addWire sr sp dr dp with
    | .ok _ => [.wired sr sp dr dp]
    | .error e => [.warn ("Could not connect power " ++ src ++ " -> " ++ dst ++ ": " ++ e)]
  | _, _ => [.warn ("Could not connect power " ++ src ++ " -> " ++ dst)]

/-- `for i in range(len(pin_list) - 1)`: join each adjacent pair in order. -/
def power_join_loop (c : Collab) (pin_maps : List (String × List (String × String))) :
    List String → List Effect
  | a :: b :: rest =>
    (Effect.joinAttempt a b :: try_join c pin_maps a b) ++ power_join_loop c pin_maps (b :: rest)
  | _ => []

/-- The body of the label-placement `try` of `_add_power_net` (lines
345-352): resolve the first pin's position, offset, place the label; any
failure is caught and logged. -/
def label_try (c : Collab) (net_name first_ref first_pin : String) : List Effect :=
  match c.getPinPos first_ref first_pin with
  | .ok pin_pos =>
    match c.addLabel net_name (pin_pos.1 + 2.54, pin_pos.2) with
    | .ok _ => [.labeled net_name]
    | .error _ =>
      [.warn ("Note: Could not add label " ++ net_name ++ " at pin "
        ++ first_ref ++ "." ++ first_pin)]
  | .error _ =>
    [.warn ("Note: Could not add label " ++ net_name ++ " at pin "
      ++ first_ref ++ "." ++ first_pin)]

/-- `_add_power_net` (lines 333-363).  The parse of the FIRST pin (source
line 344) sits outside every `try` block, so its failure propagates; the
label placement and each pairwise join are caught. -/
def add_power_net (c : Collab) (pin_list : List String) (net_name : String)
    (pin_maps : List (String × List (String × String))) : List Effect × Except String Unit :=
  match pin_list with
  | [] => ([], .ok ())
  | first :: _ =>
    match parse_pin_ref first pin_maps with
    | .error e => ([], .error e)
    | .ok (first_ref, first_pin) =>
      ((Effect.labelAttempt net_name :: label_try c net_name first_ref first_pin)
        ++ power_join_loop c pin_maps pin_list, .ok ())

/-- The `power_connections` loop of `create_schematic` (lines 233-235); the
call to `_add_power_net` is NOT wrapped, so its error propagates. -/
def power_section (c : Collab) (pin_maps : List (String × List (String × String))) :
    List (List String × String) → List Effect × Except String Unit
  | [] => ([], .ok ())
  | (pin_list, net_name) :: rest =>
    match add_power_net c pin_list net_name pin_maps with
    | (effs, .error e) => (effs, .error e)
    | (effs, .ok _) =>
      let r := power_section c pin_maps rest
      (effs ++ r.1, r.2)

/-- `create_schematic` (lines 105-254).  Returns the trace of effects up to
the point of return and either the output path or the uncaught exception.
The markdown generator is modelled only as its final fallible write (no
claim concerns the markdown content). -/
def create_schematic (c : Collab) (ksa_available : Bool)
    (components : List (String × Spec)) (connections : List (String × String))
    (filename : String) (title : Option String)
    (power_connections : Option (List (List String × String)))
    (render_svg : Bool) (auto_layout : Bool) (output_dir : Option String) :
    List Effect × Except String String :=
  if ksa_available = false then
    ([], .error "kicad-sch-api is required. Install with: pip install kicad-sch-api")
  else
    let path := get_output_path filename output_dir
    let titleStr := match title with
      | some t => if t = "" then "Schematic" else t
      | none => "Schematic"
    match c.newSchematic titleStr with
    | .error e => ([], .error e)
    | .ok _ =>
      let positions := if auto_layout then auto_layout_components components else []
      let compEffs := components.flatMap (place_component c positions)
      let pin_maps := components.map (fun p => (p.1, p.2.pins.getD []))
      let connEffs := connections.flatMap (connect_one c pin_maps)
      let pr := match power_connections with
        | some pcs => power_section c pin_maps pcs
        | none => ([], .ok ())
      match pr with
      | (pEffs, .error e) => (compEffs ++ connEffs ++ pEffs, .error e)
      | (pEffs, .ok _) =>
        match c.save path with
        | .error e => (compEffs ++ connEffs ++ pEffs, .error e)
        | .ok _ =>
          let renderEffs :=
            if render_svg then
              Effect.renderAttempt ::
              (match c.render path with
               | .ok svg => [.rendered svg]
               | .error e => [.warn ("SVG rendering failed: " ++ e)])
            else []
          let mdEffs :=
            match c.writeMd path with
            | .ok _ => [.wroteMd]
            | .error e => [.warn ("Could not generate markdown: " ++ e)]
          (compEffs ++ connEffs ++ pEffs ++ [.saved path] ++ renderEffs ++ mdEffs, .ok path)

/-! ### The MCU-pair convenience builder (source lines 599-703) -/

/-- Python `lib_id.split(':')[-1]`. -/
def last_colon_token (s : String) : String :=
  String.mk ((splitOnChar ':' s.toList).getLastD [])

/-- The mutable state of `draw_mcu_connection`'s connection loop.  The
`pullups` field instruments the resistor-creation events: it records, in
order, the `(i2c_signal, r_ref)` pair of each pull-up created. -/
structure McuBuild where
  components : List (String × Spec)
  full_connections : List (String × String)
  power_connections : List (List String × String)
  pullup_count : ℕ
  processed : List String
  pullups : List (String × String)
  deriving DecidableEq

/-- The spec of one pull-up resistor (`Device:R` with the pull-up value). -/
def pullup_spec (pullup_value : String) : Spec :=
  { lib_id := some "Device:R", value := some pullup_value,
    pins := none, footprint := none, position := none }

/-- One iteration of the loop at lines 671-693. -/
def mcu_step (mcu1_name mcu2_name : String) (i2c_pins : List String)
    (pullup_value : String) (s : McuBuild) (conn : String × String) : McuBuild :=
  let mcu1_pin := conn.1
  let mcu2_pin := conn.2
  let s1 := { s with full_connections :=
    s.full_connections ++ [(mcu1_name ++ "." ++ mcu1_pin, mcu2_name ++ "." ++ mcu2_pin)] }
  let i2c_signal : Option String :=
    if i2c_pins.contains mcu1_pin then some mcu1_pin
    else if i2c_pins.contains mcu2_pin then some mcu2_pin
    else none
  match i2c_signal with
  | none => s1
  | some sig =>
    if sig = "" then s1
    else if sig ∈ s1.processed then s1
    else
      let cnt := s1.pullup_count + 1
      let r_ref := "R" ++ Nat.repr cnt
      { s1 with
        processed := s1.processed ++ [sig],
        pullup_count := cnt,
        components := s1.components ++ [(r_ref, pullup_spec pullup_value)],
        full_connections := s1.full_connections ++ [(mcu1_name ++ "." ++ mcu1_pin, r_ref ++ ".1")],
        power_connections := s1.power_connections ++ [([r_ref ++ ".2"], "VCC")],
        pullups := s1.pullups ++ [(sig, r_ref)] }

/-- The pure assembly part of `draw_mcu_connection` (lines 649-693). -/
def draw_mcu_build (mcu1_name mcu1_lib_id : String) (mcu1_pins : List (String × String))
    (mcu2_name mcu2_lib_id : String) (mcu2_pins : List (String × String))
    (connections : List (String × String)) (i2c_pins : List String)
    (pullup_value : String) : McuBuild :=
  let init : McuBuild :=
    { components :=
        [(mcu1_name, { lib_id := some mcu1_lib_id, value := some (last_colon_token mcu1_lib_id),
                       pins := some mcu1_pins, footprint := none, position := none }),
         (mcu2_name, { lib_id := some mcu2_lib_id, value := some (last_colon_token mcu2_lib_id),
                       pins := some mcu2_pins, footprint := none, position := none })],
      full_connections := [], power_connections := [],
      pullup_count := 0, processed := [], pullups := [] }
  connections.foldl (mcu_step mcu1_name mcu2_name i2c_pins pullup_value) init

/-- `draw_mcu_connection` (lines 599-703): assemble and delegate. -/
def draw_mcu_connection (c : Collab) (ksa_available : Bool)
    (mcu1_name mcu1_lib_id : String) (mcu1_pins : List (String × String))
    (mcu2_name mcu2_lib_id : String) (mcu2_pins : List (String × String))
    (connections : List (String × String)) (filename : String) (title : Option String)
    (i2c_pins : Option (List String)) (pullup_value : String)
    (render_svg : Bool) (output_dir : Option String) : List Effect × Except String String :=
  let b := draw_mcu_build mcu1_name mcu1_lib_id mcu1_pins mcu2_name mcu2_lib_id mcu2_pins
    connections (i2c_pins.getD []) pullup_value
  create_schematic c ksa_available b.components b.full_connections filename title
    (if b.power_connections.isEmpty then none else some b.power_connections)
    render_svg true output_dir

/-! ### Claim theorems -/

/-- Claim C3: the signal classifier returns "UART" on ("U1.TX1","U2.RX"),
"I2C Data" on ("U1.SDA","U2.SDA"), "Ground" on ("R1.2","U2.GND"), the empty
string on ("X.FOO","Y.BAR"); and every pin pair whose uppercased
concatenation contains "CANH" yields "CAN High" (the CAN-High check takes
precedence over the generic "CAN" fallback). -/
theorem infer_signal_type_values :
    infer_signal_type "U1.TX1" "U2.RX" = .ok "UART" ∧
    infer_signal_type "U1.SDA" "U2.SDA" = .ok "I2C Data" ∧
    infer_signal_type "R1.2" "U2.GND" = .ok "Ground" ∧
    infer_signal_type "X.FOO" "Y.BAR" = .ok "" ∧
    ∀ src dst : String, inStr "CANH" (toUpperStr src ++ toUpperStr dst) = true →
      infer_signal_type src dst = .ok "CAN High" := by
  refine ⟨rfl, rfl, rfl, rfl, ?_⟩
  intro src dst h
  have hcan : inStr "CAN" (toUpperStr src ++ toUpperStr dst) = true := by
    have e : ("CANH".toList : List Char) = "CAN".toList ++ "H".toList := rfl
    unfold inStr at h ⊢
    rw [e] at h
    exact chHas_of_append _ _ _ h
  unfold infer_signal_type
  simp [hcan, h]

/-- Witness for the hypothesis-bearing part of the C3 theorem: the concrete
pair ("A.CANH", "B.X") contains "CANH" and classifies as "CAN High". -/
theorem infer_signal_type_values_witness :
    inStr "CANH" (toUpperStr "A.CANH" ++ toUpperStr "B.X") = true ∧
    infer_signal_type "A.CANH" "B.X" = .ok "CAN High" :=
  ⟨rfl, infer_signal_type_values.2.2.2.2 "A.CANH" "B.X" rfl⟩

/-- Boolean success test on the embedded exception monad. -/
def exceptOk {α : Type} : Except String α → Bool
  | .ok _ => true
  | .error _ => false

theorem exists_ok_of_exceptOk {α : Type} (e : Except String α) (h : exceptOk e = true) :
    ∃ r, e = .ok r := by
  cases e with
  | error err => simp [exceptOk] at h
  | ok r => exact ⟨r, rfl⟩

/-- Claim C9: `_infer_signal_type` is total: on every pair of input strings
it returns a string (the embedded fallible list index never fails, so no
exception can escape). -/
theorem infer_signal_type_total (src dst : String) :
    ∃ r, infer_signal_type src dst = .ok r := by
  apply exists_ok_of_exceptOk
  obtain ⟨a, ha⟩ := pyLast_ok _ (splitOnChar_ne_nil '.' src.toList)
  obtain ⟨b, hb⟩ := pyLast_ok _ (splitOnChar_ne_nil '.' dst.toList)
  unfold infer_signal_type
  cases hs : inStr "." src <;> cases hd : inStr "." dst <;>
    simp only [hs, hd, ha, hb, Except.map, Bool.false_eq_true, if_true, if_false] <;>
    repeat' (first | rfl | split)

/-- Claim C4: `_parse_pin_ref` raises the format error exactly when the
string does not split on '.' into two parts (zero separators or more than
one); on a well-formed string it returns a (reference, pin) pair, a pure
function of the string and the supplied pin-name maps (the embedding is a
function, so the result is deterministic by construction). -/
theorem parse_pin_ref_format (s : String) (maps : List (String × List (String × String))) :
    ((splitOnChar '.' s.toList).length ≠ 2 →
      parse_pin_ref s maps = .error ("Invalid pin reference: " ++ s)) ∧
    ((splitOnChar '.' s.toList).length = 2 →
      ∃ r p, parse_pin_ref s maps = .ok (r, p)) := by
  unfold parse_pin_ref
  rcases h : splitOnChar '.' s.toList with _ | ⟨a, _ | ⟨b, _ | ⟨c, t⟩⟩⟩
  · exact ⟨fun _ => rfl, fun h2 => by simp at h2⟩
  · exact ⟨fun _ => rfl, fun h2 => by simp at h2⟩
  · exact ⟨fun h2 => absurd rfl h2, fun _ => ⟨_, _, rfl⟩⟩
  · exact ⟨fun _ => rfl, fun h2 => by simp [Nat.succ_inj] at h2⟩

/-- Witness for C4: "U1" (no separator) raises the format error, and "A.B"
resolves to a pair. -/
theorem parse_pin_ref_format_witness :
    parse_pin_ref "U1" [] = .error ("Invalid pin reference: " ++ "U1") ∧
    ∃ r p, parse_pin_ref "A.B" [] = .ok (r, p) :=
  ⟨(parse_pin_ref_format "U1" []).1 (by decide),
   (parse_pin_ref_format "A.B" []).2 (by decide)⟩

/-- Claim C5: for a well-formed reference "A.B" where component A has no
pin-name map entry for B (or no map at all), the pin token B passes through
unchanged as the resolved pin number. -/
theorem parse_pin_ref_passthrough (xs ys : List Char)
    (maps : List (String × List (String × String)))
    (hx : '.' ∉ xs) (hy : '.' ∉ ys)
    (hmap : ∀ m, maps.lookup (String.mk xs) = some m → m.lookup (String.mk ys) = none) :
    parse_pin_ref (String.mk (xs ++ '.' :: ys)) maps = .ok (String.mk xs, String.mk ys) := by
  unfold parse_pin_ref
  have he : (String.mk (xs ++ '.' :: ys)).toList = xs ++ '.' :: ys := rfl
  rw [he, splitOnChar_sandwich '.' xs ys hx hy]
  rcases hm : maps.lookup (String.mk xs) with _ | m
  · simp [hm]
  · simp [hm, hmap m hm]

/-- Witness for C5: "R1.2" with empty maps resolves to ("R1", "2"). -/
theorem parse_pin_ref_passthrough_witness :
    ('.' ∉ (['R', '1'] : List Char)) ∧
    parse_pin_ref (String.mk (['R', '1'] ++ '.' :: ['2'])) [] =
      .ok (String.mk ['R', '1'], String.mk ['2']) :=
  ⟨by decide,
   parse_pin_ref_passthrough ['R', '1'] ['2'] [] (by decide) (by decide)
     (fun m h => by simp [List.lookup] at h)⟩

/-- A one-component MCU spec used as concrete test input. -/
def specMCU : Spec :=
  { lib_id := some "MCU_Module:Teensy4.1", value := none,
    pins := none, footprint := none, position := none }

/-- A resistor spec with an explicit position, used as concrete test input. -/
def specR0 : Spec :=
  { lib_id := some "Device:R", value := none,
    pins := none, footprint := none, position := some (0, 0) }

/-- A contrived `Device:R`-class identifier that also contains the
controller marker "IC". -/
def specRIC : Spec :=
  { lib_id := some "Device:RIC", value := none,
    pins := none, footprint := none, position := none }

theorem snap_to_grid_is_multiple (v g : ℚ) : ∃ k : ℤ, snap_to_grid v g = k * g :=
  ⟨pythonRound (v / g), rfl⟩

/-- Counterexample to C2 as stated: `_auto_layout_components` itself emits
the controller-row position x = 50, which is NOT an exact multiple of
`GRID_SPACING = 2.54` (snapping only happens later, in `create_schematic`). -/
theorem auto_layout_emits_off_grid :
    auto_layout_components [("U1", specMCU)] = [("U1", (50, 50))] ∧
    ¬ ∃ k : ℤ, (50 : ℚ) = k * GRID_SPACING := by
  constructor
  · have hcc : categorize_components [("U1", specMCU)] = (["U1"], [], []) := by decide
    unfold auto_layout_components
    rw [hcc]
    norm_num [mcu_positions, passive_positions, other_positions]
  · rintro ⟨k, hk⟩
    rw [GRID_SPACING] at hk
    have hq : (2500 : ℚ) = (k : ℚ) * 127 := by
      norm_num at hk
      linarith
    have hz : (2500 : ℤ) = k * 127 := by exact_mod_cast hq
    omega

/-- Claim C2 (amended): grid snapping is idempotent, and every component
position actually placed by `create_schematic` (the snapped positions of
`component_positions`) is an exact integer multiple of `GRID_SPACING`; the
raw positions emitted by `_auto_layout_components` need not be multiples —
they are snapped by `create_schematic` before placement. -/
theorem snap_idempotent_and_placed_on_grid :
    (∀ v : ℚ, snap_to_grid (snap_to_grid v GRID_SPACING) GRID_SPACING
        = snap_to_grid v GRID_SPACING) ∧
    (∀ (comps : List (String × Spec)) (al : Bool) (ref : String) (x y : ℚ),
      (ref, (x, y)) ∈ component_positions comps al →
      (∃ j : ℤ, x = j * GRID_SPACING) ∧ ∃ k : ℤ, y = k * GRID_SPACING) := by
  constructor
  · intro v
    exact snap_to_grid_fixed v GRID_SPACING (by norm_num [GRID_SPACING])
  · intro comps al ref x y hmem
    unfold component_positions at hmem
    rw [List.mem_map] at hmem
    obtain ⟨p, _, he⟩ := hmem
    rw [Prod.mk.injEq] at he
    have hfin := he.2
    unfold final_position at hfin
    rw [Prod.mk.injEq] at hfin
    exact ⟨hfin.1 ▸ snap_to_grid_is_multiple _ _, hfin.2 ▸ snap_to_grid_is_multiple _ _⟩

/-- Witness for C2 (amended) at a concrete component with explicit
position (0,0). -/
theorem snap_to_grid_zero : snap_to_grid 0 GRID_SPACING = 0 := by
  unfold snap_to_grid pythonRound
  norm_num

theorem mem_component_positions_R0 :
    ("R1", ((0 : ℚ), (0 : ℚ))) ∈ component_positions [("R1", specR0)] true := by
  unfold component_positions final_position
  simp [specR0, snap_to_grid_zero]

theorem snap_idempotent_and_placed_on_grid_witness :
    (("R1", ((0 : ℚ), (0 : ℚ))) ∈ component_positions [("R1", specR0)] true) ∧
    ((∃ j : ℤ, (0 : ℚ) = j * GRID_SPACING) ∧ ∃ k : ℤ, (0 : ℚ) = k * GRID_SPACING) :=
  ⟨mem_component_positions_R0,
   snap_idempotent_and_placed_on_grid.2 [("R1", specR0)] true "R1" 0 0
     mem_component_positions_R0⟩

/-! ### Categorization membership lemmas -/

theorem mem_mcus_of (comps : List (String × Spec)) (ref : String) (spec : Spec)
    (h : (ref, spec) ∈ comps) (hc : categorize (spec.lib_id.getD "") = Category.mcu) :
    ref ∈ (categorize_components comps).1 := by
  induction comps with
  | nil => cases h
  | cons p rest ih =>
    obtain ⟨r, s⟩ := p
    rw [List.mem_cons] at h
    rcases h with h | h
    · rw [Prod.mk.injEq] at h
      obtain ⟨h1, h2⟩ := h
      subst h1; subst h2
      simp only [categorize_components, hc]
      exact List.mem_cons_self _ _
    · have := ih h
      simp only [categorize_components]
      rcases hcs : categorize (s.lib_id.getD "") <;> simp [hcs, this]

theorem of_mem_mcus (comps : List (String × Spec)) (ref : String)
    (h : ref ∈ (categorize_components comps).1) :
    ∃ s, (ref, s) ∈ comps ∧ categorize (s.lib_id.getD "") = Category.mcu := by
  induction comps with
  | nil => cases h
  | cons p rest ih =>
    obtain ⟨r, s⟩ := p
    rcases hcs : categorize (s.lib_id.getD "") with _ | _ | _ <;>
      simp only [categorize_components, hcs] at h
    · rw [List.mem_cons] at h
      rcases h with h | h
      · exact ⟨s, by simp [h], hcs⟩
      · obtain ⟨s', hs', hc'⟩ := ih h
        exact ⟨s', List.mem_cons_of_mem _ hs', hc'⟩
    · obtain ⟨s', hs', hc'⟩ := ih h
      exact ⟨s', List.mem_cons_of_mem _ hs', hc'⟩
    · obtain ⟨s', hs', hc'⟩ := ih h
      exact ⟨s', List.mem_cons_of_mem _ hs', hc'⟩

theorem mem_passives_of (comps : List (String × Spec)) (ref : String) (spec : Spec)
    (h : (ref, spec) ∈ comps) (hc : categorize (spec.lib_id.getD "") = Category.passive) :
    ref ∈ (categorize_components comps).2.1 := by
  induction comps with
  | nil => cases h
  | cons p rest ih =>
    obtain ⟨r, s⟩ := p
    rw [List.mem_cons] at h
    rcases h with h | h
    · rw [Prod.mk.injEq] at h
      obtain ⟨h1, h2⟩ := h
      subst h1; subst h2
      simp only [categorize_components, hc]
      exact List.mem_cons_self _ _
    · have := ih h
      simp only [categorize_components]
      rcases hcs : categorize (s.lib_id.getD "") <;> simp [hcs, this]

theorem of_mem_passives (comps : List (String × Spec)) (ref : String)
    (h : ref ∈ (categorize_components comps).2.1) :
    ∃ s, (ref, s) ∈ comps ∧ categorize (s.lib_id.getD "") = Category.passive := by
  induction comps with
  | nil => cases h
  | cons p rest ih =>
    obtain ⟨r, s⟩ := p
    rcases hcs : categorize (s.lib_id.getD "") with _ | _ | _ <;>
      simp only [categorize_components, hcs] at h
    · obtain ⟨s', hs', hc'⟩ := ih h
      exact ⟨s', List.mem_cons_of_mem _ hs', hc'⟩
    · rw [List.mem_cons] at h
      rcases h with h | h
      · exact ⟨s, by simp [h], hcs⟩
      · obtain ⟨s', hs', hc'⟩ := ih h
        exact ⟨s', List.mem_cons_of_mem _ hs', hc'⟩
    · obtain ⟨s', hs', hc'⟩ := ih h
      exact ⟨s', List.mem_cons_of_mem _ hs', hc'⟩

/-- A duplicate-free key list determines the spec of each reference. -/
theorem nodup_key_unique (comps : List (String × Spec))
    (hnd : (comps.map Prod.fst).Nodup) (ref : String) (s1 s2 : Spec)
    (h1 : (ref, s1) ∈ comps) (h2 : (ref, s2) ∈ comps) : s1 = s2 := by
  induction comps with
  | nil => cases h1
  | cons p rest ih =>
    obtain ⟨r, s⟩ := p
    rw [List.map_cons, List.nodup_cons] at hnd
    rw [List.mem_cons] at h1 h2
    rcases h1 with h1 | h1 <;> rcases h2 with h2 | h2
    · rw [Prod.mk.injEq] at h1 h2
      rw [h1.2, h2.2]
    · rw [Prod.mk.injEq] at h1
      refine absurd ?_ hnd.1
      rw [← h1.1]
      exact List.mem_map.mpr ⟨(ref, s2), h2, rfl⟩
    · rw [Prod.mk.injEq] at h2
      refine absurd ?_ hnd.1
      rw [← h2.1]
      exact List.mem_map.mpr ⟨(ref, s1), h1, rfl⟩
    · exact ih hnd.2 h1 h2

/-- Counterexample to C8 as stated: the library identifier "Device:RIC"
starts with "Device:R", yet it is categorized into the controller (MCU)
row, not the passive grid, because the substring check for the marker "IC"
runs first. -/
theorem device_r_class_in_controller_row :
    startsWithStr "Device:RIC" "Device:R" = true ∧
    categorize_components [("R1", specRIC)] = (["R1"], [], []) ∧
    auto_layout_components [("R1", specRIC)] = [("R1", (50, 50))] := by
  refine ⟨rfl, by decide, ?_⟩
  have hcc : categorize_components [("R1", specRIC)] = (["R1"], [], []) := by decide
  unfold auto_layout_components
  rw [hcc]
  norm_num [mcu_positions, passive_positions, other_positions]

/-- Claim C8 (amended): a component whose lib_id contains "MCU" is always
placed in the controller row and never in the passive grid; a component
whose lib_id starts with "Device:R" is placed in the passive grid and never
in the controller row PROVIDED the identifier does not also contain one of
the controller markers "MCU", "Module", "IC" (the marker check takes
precedence, as the counterexample "Device:RIC" forces). -/
theorem categorize_markers (comps : List (String × Spec)) (ref : String) (spec : Spec)
    (hnd : (comps.map Prod.fst).Nodup) (hmem : (ref, spec) ∈ comps) :
    (inStr "MCU" (spec.lib_id.getD "") = true →
      ref ∈ (categorize_components comps).1 ∧ ref ∉ (categorize_components comps).2.1) ∧
    (startsWithStr (spec.lib_id.getD "") "Device:R" = true →
      inStr "MCU" (spec.lib_id.getD "") = false →
      inStr "Module" (spec.lib_id.getD "") = false →
      inStr "IC" (spec.lib_id.getD "") = false →
      ref ∈ (categorize_components comps).2.1 ∧ ref ∉ (categorize_components comps).1) := by
  constructor
  · intro hmcu
    have hc : categorize (spec.lib_id.getD "") = Category.mcu := by
      unfold categorize
      simp [hmcu]
    refine ⟨mem_mcus_of comps ref spec hmem hc, ?_⟩
    intro hp
    obtain ⟨s', hmem', hc'⟩ := of_mem_passives comps ref hp
    rw [nodup_key_unique comps hnd ref s' spec hmem' hmem] at hc'
    rw [hc] at hc'
    cases hc'
  · intro hdr h1 h2 h3
    have hc : categorize (spec.lib_id.getD "") = Category.passive := by
      unfold categorize
      simp [h1, h2, h3, hdr]
    refine ⟨mem_passives_of comps ref spec hmem hc, ?_⟩
    intro hm
    obtain ⟨s', hmem', hc'⟩ := of_mem_mcus comps ref hm
    rw [nodup_key_unique comps hnd ref s' spec hmem' hmem] at hc'
    rw [hc] at hc'
    cases hc'

/-- Witness for C8 (amended): the MCU spec lands in the controller row and
not in the passive grid. -/
theorem categorize_markers_witness :
    "U1" ∈ (categorize_components [("U1", specMCU)]).1 ∧
    "U1" ∉ (categorize_components [("U1", specMCU)]).2.1 :=
  (categorize_markers [("U1", specMCU)] "U1" specMCU (by decide) (by decide)).1 (by decide)

/-! ### Keys of the layout are a permutation of the component keys -/

theorem mcu_positions_keys (l : List String) (i : ℕ) :
    (mcu_positions i l).map Prod.fst = l := by
  induction l generalizing i with
  | nil => rfl
  | cons a rest ih => simp [mcu_positions, ih]

theorem passive_positions_keys (l : List String) (px : ℚ) (i : ℕ) :
    (passive_positions px i l).map Prod.fst = l := by
  induction l generalizing i with
  | nil => rfl
  | cons a rest ih => simp [passive_positions, ih]

theorem other_positions_keys (l : List String) (ox : ℚ) (i : ℕ) :
    (other_positions ox i l).map Prod.fst = l := by
  induction l generalizing i with
  | nil => rfl
  | cons a rest ih => simp [other_positions, ih]

theorem auto_layout_keys (comps : List (String × Spec)) :
    (auto_layout_components comps).map Prod.fst =
      (categorize_components comps).1 ++ (categorize_components comps).2.1
        ++ (categorize_components comps).2.2 := by
  unfold auto_layout_components
  simp [mcu_positions_keys, passive_positions_keys, other_positions_keys]

theorem cc_keys_perm (comps : List (String × Spec)) :
    ((categorize_components comps).1 ++ (categorize_components comps).2.1
      ++ (categorize_components comps).2.2).Perm (comps.map Prod.fst) := by
  induction comps with
  | nil => simp [categorize_components]
  | cons p rest ih =>
    obtain ⟨r, s⟩ := p
    rcases hcs : categorize (s.lib_id.getD "") with _ | _ | _ <;>
      simp only [categorize_components, hcs, List.map_cons]
    · exact ih.cons r
    · have hmid : ((categorize_components rest).1 ++ (r :: (categorize_components rest).2.1)
          ++ (categorize_components rest).2.2).Perm
          (r :: ((categorize_components rest).1 ++ (categorize_components rest).2.1
            ++ (categorize_components rest).2.2)) := by
        rw [List.append_assoc, List.cons_append, List.append_assoc]
        exact List.perm_middle
      exact hmid.trans (ih.cons r)
    · exact List.perm_middle.trans (ih.cons r)

/-- Claim C10 (implicit): with no controller marker in the identifier,
passivity is decided exactly by the "Device:R"/"Device:C"/"Device:L" name
classes; the quoted examples classify accordingly; and for duplicate-free
component keys the auto-layout assigns every supplied component exactly one
position (the three categories partition the input). -/
theorem passive_class_layout :
    (∀ lib : String, inStr "MCU" lib = false → inStr "Module" lib = false →
        inStr "IC" lib = false →
        (categorize lib = Category.passive ↔
          (startsWithStr lib "Device:R" = true ∨ startsWithStr lib "Device:C" = true
            ∨ startsWithStr lib "Device:L" = true))) ∧
    categorize "Device:LED" = Category.passive ∧
    categorize "Device:CP" = Category.passive ∧
    categorize "Device:R_Potentiometer" = Category.passive ∧
    categorize "Device:D" = Category.other ∧
    (∀ comps : List (String × Spec), (comps.map Prod.fst).Nodup →
      ∀ ref ∈ comps.map Prod.fst,
        ((auto_layout_components comps).map Prod.fst).count ref = 1) := by
  refine ⟨?_, by decide, by decide, by decide, by decide, ?_⟩
  · intro lib h1 h2 h3
    unfold categorize
    simp only [h1, h2, h3, Bool.or_self, Bool.false_eq_true, if_false]
    cases hb : (startsWithStr lib "Device:R" || startsWithStr lib "Device:C"
        || startsWithStr lib "Device:L") with
    | false =>
      simp only [Bool.false_eq_true, if_false]
      simp only [Bool.or_eq_false_iff] at hb
      obtain ⟨⟨ha, hbb⟩, hc⟩ := hb
      constructor
      · intro h
        exact Category.noConfusion h
      · rintro (h | h | h)
        · rw [h] at ha; cases ha
        · rw [h] at hbb; cases hbb
        · rw [h] at hc; cases hc
    | true =>
      simp only [Bool.or_eq_true] at hb
      exact ⟨fun _ => by tauto, fun _ => rfl⟩
  · intro comps hnd ref href
    rw [auto_layout_keys]
    rw [List.Perm.count_eq (cc_keys_perm comps)]
    exact List.count_eq_one_of_mem hnd href

/-- Witness for C10 at a concrete one-resistor input. -/
theorem passive_class_layout_witness :
    ((List.map Prod.fst [("R1", specR0)]).Nodup) ∧
    ((auto_layout_components [("R1", specR0)]).map Prod.fst).count "R1" = 1 :=
  ⟨by decide,
   passive_class_layout.2.2.2.2.2 [("R1", specR0)] (by decide) "R1" (by decide)⟩

/-! ### Effect counting for the power-net claims -/

/-- Number of label-placement attempts recorded in a trace. -/
def label_attempt_count (effs : List Effect) : ℕ :=
  effs.countP (fun e => match e with | .labelAttempt _ => true | _ => false)

/-- The wire-join attempts recorded in a trace, in order. -/
def join_attempts (effs : List Effect) : List (String × String) :=
  effs.filterMap (fun e => match e with | .joinAttempt a b => some (a, b) | _ => none)

/-- The adjacent pairs of a list: `[a,b,c] ↦ [(a,b),(b,c)]`. -/
def adjacent_pairs : List String → List (String × String)
  | a :: b :: rest => (a, b) :: adjacent_pairs (b :: rest)
  | _ => []

theorem adjacent_pairs_length (l : List String) :
    (adjacent_pairs l).length = l.length - 1 := by
  induction l with
  | nil => rfl
  | cons a rest ih =>
    cases rest with
    | nil => rfl
    | cons b r2 =>
      simp only [adjacent_pairs, List.length_cons]
      rw [ih]
      simp only [List.length_cons]
      omega

theorem label_attempt_count_append (l1 l2 : List Effect) :
    label_attempt_count (l1 ++ l2) = label_attempt_count l1 + label_attempt_count l2 :=
  List.countP_append _ _ _

theorem join_attempts_append (l1 l2 : List Effect) :
    join_attempts (l1 ++ l2) = join_attempts l1 ++ join_attempts l2 :=
  List.filterMap_append _ _ _

theorem try_join_effects (c : Collab) (maps : List (String × List (String × String)))
    (a b : String) :
    label_attempt_count (try_join c maps a b) = 0 ∧
    join_attempts (try_join c maps a b) = [] := by
  unfold try_join
  repeat' (first | exact ⟨rfl, rfl⟩ | split)

theorem label_try_effects (c : Collab) (net fr fp : String) :
    label_attempt_count (label_try c net fr fp) = 0 ∧
    join_attempts (label_try c net fr fp) = [] := by
  unfold label_try
  repeat' (first | exact ⟨rfl, rfl⟩ | split)

theorem power_join_loop_effects (c : Collab) (maps : List (String × List (String × String)))
    (l : List String) :
    label_attempt_count (power_join_loop c maps l) = 0 ∧
    join_attempts (power_join_loop c maps l) = adjacent_pairs l := by
  induction l with
  | nil => exact ⟨rfl, rfl⟩
  | cons a rest ih =>
    cases rest with
    | nil => exact ⟨rfl, rfl⟩
    | cons b r2 =>
      obtain ⟨ht1, ht2⟩ := try_join_effects c maps a b
      obtain ⟨ih1, ih2⟩ := ih
      constructor
      · simp only [power_join_loop, label_attempt_count_append, ih1, Nat.add_zero]
        simp only [label_attempt_count, List.countP_cons] at ht1 ⊢
        simp [ht1]
      · simp only [power_join_loop, join_attempts_append, ih2]
        simp only [join_attempts, List.filterMap_cons] at ht2 ⊢
        simp [ht2, adjacent_pairs]

/-- Counterexample to C6 as stated: on the singleton group `["X"]` whose
(first) pin reference is malformed, `_add_power_net` raises instead of
making the one label-placement attempt the claim requires. -/
theorem add_power_net_malformed_first :
    add_power_net okCollab ["X"] "VCC" [] = ([], .error "Invalid pin reference: X") ∧
    label_attempt_count (add_power_net okCollab ["X"] "VCC" []).1 = 0 :=
  ⟨rfl, rfl⟩

/-- Claim C6 (amended): for an empty group `_add_power_net` performs no side
effects, and for a group of length n ≥ 1 WHOSE FIRST PIN REFERENCE PARSES it
makes exactly one label-placement attempt and exactly n-1 wire-join
attempts, joining each adjacent pair in list order (a malformed first pin
instead raises, as the counterexample forces). -/
theorem add_power_net_effects (c : Collab) (pins : List String) (net : String)
    (maps : List (String × List (String × String))) :
    (pins = [] → add_power_net c pins net maps = ([], .ok ())) ∧
    (∀ first rest, pins = first :: rest → exceptOk (parse_pin_ref first maps) = true →
      ∃ effs, add_power_net c pins net maps = (effs, .ok ()) ∧
        label_attempt_count effs = 1 ∧
        join_attempts effs = adjacent_pairs pins ∧
        (adjacent_pairs pins).length = pins.length - 1) := by
  constructor
  · rintro rfl
    rfl
  · rintro first rest rfl hok
    obtain ⟨v, hv⟩ := exists_ok_of_exceptOk _ hok
    obtain ⟨fr, fp⟩ := v
    simp only [add_power_net]
    rw [hv]
    obtain ⟨hl1, hl2⟩ := power_join_loop_effects c maps (first :: rest)
    obtain ⟨ht1, ht2⟩ := label_try_effects c net fr fp
    refine ⟨_, rfl, ?_, ?_, adjacent_pairs_length _⟩
    · rw [label_attempt_count_append, hl1]
      simp only [label_attempt_count, List.countP_cons] at ht1 ⊢
      simp [ht1]
    · rw [join_attempts_append, hl2]
      simp only [join_attempts, List.filterMap_cons] at ht2 ⊢
      simp [ht2]

/-- Witness for C6 (amended) on the two-pin group `["A.1","B.2"]`. -/
theorem add_power_net_effects_witness :
    ∃ effs, add_power_net okCollab ["A.1", "B.2"] "VCC" [] = (effs, .ok ()) ∧
      label_attempt_count effs = 1 ∧
      join_attempts effs = adjacent_pairs ["A.1", "B.2"] ∧
      (adjacent_pairs ["A.1", "B.2"]).length = (["A.1", "B.2"] : List String).length - 1 :=
  (add_power_net_effects okCollab ["A.1", "B.2"] "VCC" []).2 "A.1" ["B.2"] rfl (by decide)

/-! ### Pull-up deduplication in the MCU-pair builder -/

/-- Sequential pull-up references `["R1", ..., "Rn"]`. -/
def seq_refs (n : ℕ) : List String :=
  (List.range n).map (fun i => "R" ++ Nat.repr (i + 1))

/-- The loop invariant of `draw_mcu_connection`'s pull-up bookkeeping:
the recorded signals are duplicate-free and covered by `processed`, the
counter equals the number of pull-ups created, and the created references
are `R1, R2, ...` in order. -/
def McuInv (s : McuBuild) : Prop :=
  (s.pullups.map Prod.fst).Nodup ∧
  (∀ x ∈ s.pullups.map Prod.fst, x ∈ s.processed) ∧
  s.pullup_count = s.pullups.length ∧
  s.pullups.map Prod.snd = seq_refs s.pullup_count

theorem seq_refs_succ (n : ℕ) :
    seq_refs (n + 1) = seq_refs n ++ ["R" ++ Nat.repr (n + 1)] := by
  unfold seq_refs
  rw [List.range_succ, List.map_append]
  rfl

theorem mcu_step_inv (mcu1 mcu2 : String) (i2c : List String) (pv : String)
    (s : McuBuild) (conn : String × String) (h : McuInv s) :
    McuInv (mcu_step mcu1 mcu2 i2c pv s conn) := by
  obtain ⟨h1, h2, h3, h4⟩ := h
  unfold mcu_step
  dsimp only
  split
  · exact ⟨h1, h2, h3, h4⟩
  · split
    · exact ⟨h1, h2, h3, h4⟩
    · split
      · exact ⟨h1, h2, h3, h4⟩
      · rename_i sig hsig hne hmem
        refine ⟨?_, ?_, ?_, ?_⟩
        · simp only [List.map_append]
          rw [List.nodup_append]
          refine ⟨h1, List.nodup_singleton _, ?_⟩
          intro x hx hx1
          simp only [List.map_cons, List.map_nil, List.mem_singleton] at hx1
          exact hmem (hx1 ▸ h2 x hx)
        · intro x hx
          simp only [List.map_append, List.mem_append, List.map_cons, List.map_nil,
            List.mem_singleton] at hx
          rcases hx with hx | hx
          · exact List.mem_append_left _ (h2 x hx)
          · exact List.mem_append_right _ (by simp [hx])
        · simp [h3]
        · simp only [List.map_append, List.map_cons, List.map_nil]
          rw [h4, h3, seq_refs_succ]

theorem foldl_mcu_inv (mcu1 mcu2 : String) (i2c : List String) (pv : String)
    (conns : List (String × String)) (s : McuBuild) (h : McuInv s) :
    McuInv (conns.foldl (mcu_step mcu1 mcu2 i2c pv) s) := by
  induction conns generalizing s with
  | nil => exact h
  | cons cn rest ih => exact ih _ (mcu_step_inv mcu1 mcu2 i2c pv s cn h)

/-- Claim C7: in `draw_mcu_connection`'s assembly, at most one pull-up
resistor is created per flagged signal name (the created signals are
pairwise distinct), and the resistor references are `R1, R2, ...`
sequentially in order of first occurrence. -/
theorem draw_mcu_pullup_dedup (mcu1_name mcu1_lib : String) (p1 : List (String × String))
    (mcu2_name mcu2_lib : String) (p2 : List (String × String))
    (conns : List (String × String)) (i2c : List String) (pv : String) :
    (((draw_mcu_build mcu1_name mcu1_lib p1 mcu2_name mcu2_lib p2 conns i2c pv).pullups.map
        Prod.fst).Nodup) ∧
    ((draw_mcu_build mcu1_name mcu1_lib p1 mcu2_name mcu2_lib p2 conns i2c pv).pullups.map
        Prod.snd) =
      seq_refs (draw_mcu_build mcu1_name mcu1_lib p1 mcu2_name mcu2_lib p2
        conns i2c pv).pullups.length := by
  have h := foldl_mcu_inv mcu1_name mcu2_name i2c pv conns
    ({ components :=
        [(mcu1_name, { lib_id := some mcu1_lib, value := some (last_colon_token mcu1_lib),
                       pins := some p1, footprint := none, position := none }),
         (mcu2_name, { lib_id := some mcu2_lib, value := some (last_colon_token mcu2_lib),
                       pins := some p2, footprint := none, position := none })],
       full_connections := [], power_connections := [],
       pullup_count := 0, processed := [], pullups := [] })
    ⟨List.nodup_nil, by simp, rfl, rfl⟩
  obtain ⟨h1, _, h3, h4⟩ := h
  exact ⟨h1, by rw [draw_mcu_build] at *; rw [h4, h3]⟩

/-! ### The power-net abort in `create_schematic` -/

/-- Whether an effect is the persistence of the schematic file. -/
def is_saved : Effect → Bool
  | .saved _ => true
  | _ => false

/-- Claim C1 (code bug): on a build whose power group's first pin reference
"U1" lacks the '.' separator, the `ValueError` raised by `_parse_pin_ref`
at line 344 of the source — the one resolver call sitting outside every
`try` block — propagates out of `_add_power_net` and aborts
`create_schematic` before `sch.save` runs: the call returns the error, the
trace contains no `saved` effect, and no path is returned, contradicting
the spec's skip-and-warn propagation policy which the rest of the function
implements. -/
theorem create_schematic_power_first_pin_aborts :
    (create_schematic okCollab true [("U1", specMCU)] [] "circuit.kicad_sch" none
        (some [(["U1"], "VCC")]) true true none).2 = .error "Invalid pin reference: U1" ∧
    (create_schematic okCollab true [("U1", specMCU)] [] "circuit.kicad_sch" none
        (some [(["U1"], "VCC")]) true true none).1.countP is_saved = 0 :=
  ⟨rfl, rfl⟩

end KicadHelper
